import Mathlib

/-!
A verification development for the Podcatcher web application.

The JavaScript sources (`js/utils.js`, `js/player.js`, the `PodcastAPI`
class) are shallowly embedded as Lean functions.  Host capabilities that
the code merely delegates to (the DOM XML parser, `Date`, `localStorage`,
the HTML audio element) appear as explicit parameters or as explicit
state records; machine timestamps are `Int` milliseconds and media
positions are rationals.
-/

namespace Podcatcher

/-- Numeric value of a list of decimal digit characters, as computed by
JavaScript `parseInt(str, 10)` on an all-digit string. -/
def digitsToNat (l : List Char) : Nat :=
  l.foldl (fun n c => n * 10 + (c.toNat - 48)) 0

/-- Helper for `stripHtml`: walks the characters, dropping everything
between `<` and the next `>`.  The Bool flag records being inside a tag. -/
def stripHtmlAux : Bool → List Char → List Char
  | _, [] => []
  | true, c :: r => if c = '>' then stripHtmlAux false r else stripHtmlAux true r
  | false, c :: r => if c = '<' then stripHtmlAux true r else c :: stripHtmlAux false r

/-- Embedding of `stripHtml` from `js/utils.js`: the code assigns the string to a
div's `innerHTML` and reads back `textContent`, which removes the markup
and keeps the text.  Modelled as removal of `<...>` tag spans (character
entity re-decoding inside the fragment is not modelled; no claim needs it). -/
def stripHtml (s : String) : String :=
  ⟨stripHtmlAux false s.data⟩

/-- Greedy digit-run match at the head of the list: the digits consumed
and the rest.  Mirrors how `\d+` behaves inside the duration patterns
(backtracking a greedy digit run can never help there, because a shorter
run leaves a digit where `:` is required). -/
def spanDigits (l : List Char) : List Char × List Char :=
  (l.takeWhile Char.isDigit, l.dropWhile Char.isDigit)

/-- Match of `(\d+):(\d+):(\d+)` anchored at the start of the list,
returning the three captured groups as numbers. -/
def matchHMSAt (l : List Char) : Option (Nat × Nat × Nat) :=
  let p1 := spanDigits l
  if p1.1 = [] then none else
  match p1.2 with
  | ':' :: r2 =>
    let p2 := spanDigits r2
    if p2.1 = [] then none else
    match p2.2 with
    | ':' :: r4 =>
      let p3 := spanDigits r4
      if p3.1 = [] then none
      else some (digitsToNat p1.1, digitsToNat p2.1, digitsToNat p3.1)
    | _ => none
  | _ => none

/-- Leftmost match of the unanchored pattern `(\d+):(\d+):(\d+)`, as
`timePattern.test` / `.match` find it. -/
def searchHMS : List Char → Option (Nat × Nat × Nat)
  | [] => none
  | c :: r =>
    match matchHMSAt (c :: r) with
    | some x => some x
    | none => searchHMS r

/-- Match of `(\d+):(\d+)` anchored at the start of the list. -/
def matchMSAt (l : List Char) : Option (Nat × Nat) :=
  let p1 := spanDigits l
  if p1.1 = [] then none else
  match p1.2 with
  | ':' :: r2 =>
    let p2 := spanDigits r2
    if p2.1 = [] then none
    else some (digitsToNat p1.1, digitsToNat p2.1)
  | _ => none

/-- Leftmost match of the unanchored pattern `(\d+):(\d+)`. -/
def searchMS : List Char → Option (Nat × Nat)
  | [] => none
  | c :: r =>
    match matchMSAt (c :: r) with
    | some x => some x
    | none => searchMS r

/-- Embedding of `PodcastAPI.parseDuration`: empty input is falsy and yields 0; then
`^\d+$` (bare seconds), then `(\d+):(\d+):(\d+)` (H:MM:SS), then
`(\d+):(\d+)` (MM:SS); an input matching none of the patterns yields 0. -/
def parseDuration (s : String) : Nat :=
  if s.data = [] then 0
  else if s.data.all Char.isDigit then digitsToNat s.data
  else
    match searchHMS s.data with
    | some (h, m, sec) => h * 3600 + m * 60 + sec
    | none =>
      match searchMS s.data with
      | some (m, sec) => m * 60 + sec
      | none => 0

/-- An `enclosure` element of a feed item: its `url` and `type`
attributes (empty string when the attribute is missing, which the code
treats the same as a missing value). -/
structure Enclosure where
  url : String
  mediaType : String
deriving DecidableEq

/-- A feed `item` as seen through the DOM queries in
`PodcastAPI.parseEpisodeItem` / `getImageUrl`: each field is the trimmed
`textContent` of the first matching tag (empty string when the tag is
absent), or the relevant attribute for the element-valued fields. -/
structure Item where
  title : String
  description : String
  itunesSummary : String
  pubDate : String
  guid : String
  enclosure : Option Enclosure
  itunesDuration : String
  durationTag : String
  itunesImageHref : String
  mediaContentImageUrl : String
  imageEnclosureUrl : String
deriving DecidableEq

/-- The episode record built by `PodcastAPI.parseEpisodeItem`. -/
structure Episode where
  title : String
  description : String
  audioUrl : String
  pubDate : String
  duration : Nat
  artwork : String
  guid : String
  mediaType : String
deriving DecidableEq

/-- Embedding of `PodcastAPI.getImageUrl`: the `itunes:image` `href`, else the
`media:content[medium="image"]` `url`, else the `url` of an enclosure
whose `type` starts with `image`; empty string when none matches.  The
JavaScript falsy chain on `null`/`''` collapses to first-non-empty. -/
def getImageUrl (item : Item) : String :=
  let i1 := item.itunesImageHref
  let i2 := if i1 = "" then item.mediaContentImageUrl else i1
  if i2 = "" then item.imageEnclosureUrl else i2

/-- Embedding of `PodcastAPI.parseEpisodeItem`: returns `none` (JavaScript `null`)
when the raw title or the enclosure audio URL is empty/missing; otherwise
builds the episode, stripping markup from title and description and
normalizing the duration. -/
def parseEpisodeItem (item : Item) : Option Episode :=
  let title := item.title
  let description :=
    if item.description = "" then item.itunesSummary else item.description
  let audioUrl :=
    match item.enclosure with
    | some e => e.url
    | none => ""
  if title = "" ∨ audioUrl = "" then none
  else
    let duration :=
      if item.itunesDuration = "" then item.durationTag else item.itunesDuration
    some {
      title := stripHtml title
      description := stripHtml description
      audioUrl := audioUrl
      pubDate := item.pubDate
      duration := parseDuration duration
      artwork := getImageUrl item
      guid := if item.guid = "" then audioUrl else item.guid
      mediaType :=
        match item.enclosure with
        | some e => e.mediaType
        | none => "audio/mpeg" }

/-- Stable insertion step for the descending-by-date sort.  `dateVal`
stands for the host `new Date(s).getTime()` on the pubDate strings (the
claims only concern feeds whose dates all parse, so it is total here).
`e` is placed before the first element that must come after it under the
comparator `(a, b) => dateVal b - dateVal a`; ties keep original order,
as the host sort is stable. -/
def insertDateDesc (dateVal : String → Int) (e : Episode) :
    List Episode → List Episode
  | [] => [e]
  | x :: xs =>
    if dateVal x.pubDate ≤ dateVal e.pubDate then e :: x :: xs
    else x :: insertDateDesc dateVal e xs

/-- Stable sort descending by parsed `pubDate`, modelling
`episodes.sort((a, b) => new Date(b.pubDate) - new Date(a.pubDate))`. -/
def sortDateDesc (dateVal : String → Int) : List Episode → List Episode
  | [] => []
  | x :: xs => insertDateDesc dateVal x (sortDateDesc dateVal xs)

/-- The result of `DOMParser.parseFromString(s, 'text/xml')`: either the
document contains a `parsererror` element, or it exposes its `item`
elements. -/
structure XMLDoc where
  parserError : Bool
  items : List Item
deriving DecidableEq

/-- Embedding of `PodcastAPI.parseEpisodesFromXML`: each item is parsed independently
(a per-item failure or `null` is skipped, the rest of the feed kept) and
the surviving episodes are sorted most-recent-first. -/
def parseEpisodesFromXML (dateVal : String → Int) (xmlDoc : XMLDoc) :
    List Episode :=
  sortDateDesc dateVal (xmlDoc.items.filterMap parseEpisodeItem)

/-- A cache entry `{value, timestamp}` as stored by `setCachedData`
(JSON serialization through `localStorage` is abstracted away: the store
maps a key to the deserialized entry or `none`). -/
structure CacheEntry (α : Type) where
  value : α
  timestamp : Int
deriving DecidableEq

/-- Embedding of `getCachedData` from `js/utils.js` (default `maxAge` at the call
sites ranges from 15 to 60 minutes): a missing entry reads as `none`; an
entry with `now - timestamp > maxAge` is removed from the store and reads
as `none`; otherwise the stored value is returned and the store is left
unchanged.  Returns the read result together with the updated store. -/
def getCachedData {α : Type} (store : String → Option (CacheEntry α))
    (key : String) (now : Int) (maxAge : Int) :
    Option α × (String → Option (CacheEntry α)) :=
  match store key with
  | none => (none, store)
  | some data =>
    if now - data.timestamp > maxAge then
      (none, fun k => if k = key then none else store k)
    else
      (some data.value, store)

/-- Embedding of `setCachedData` from `js/utils.js`: stores `{value, timestamp: now}`
under the key, overwriting any prior entry. -/
def setCachedData {α : Type} (store : String → Option (CacheEntry α))
    (key : String) (value : α) (now : Int) :
    String → Option (CacheEntry α) :=
  fun k => if k = key then some ⟨value, now⟩ else store k

/-- Embedding of `parseXMLFromString` from `js/utils.js`: the host parser is passed in
as `domParse`.  When the parsed document contains a `parsererror`
element the function throws internally, catches its own exception and
returns `null`; it never propagates a failure. -/
def parseXMLFromString (domParse : String → XMLDoc) (xmlString : String) :
    Option XMLDoc :=
  let xmlDoc := domParse xmlString
  if xmlDoc.parserError then none else some xmlDoc

/-- Substring test modelling JavaScript `String.prototype.includes`. -/
def strIncludes (s sub : String) : Bool :=
  decide (sub.data <:+: s.data)

/-- The observable part of a `fetch` response: `ok`, `status`, body text. -/
structure FetchResponse where
  ok : Bool
  status : Nat
  body : String
deriving DecidableEq

/-- Embedding of `PodcastAPI.getPodcastEpisodes`.  `validUrl` is the conjunction
`feedUrl && isValidUrl(feedUrl)` (the guard throws outside the
try/catch); `cached` is the result of the `getCachedData` read (any
cached array, even empty, is truthy and short-circuits); `fetchResult`
is the outcome of `fetch` + `response.text()`.  Inside the try block an
HTTP error, a document-level parse failure, or the fetch rejection is
caught and re-thrown as a CORS-specific or generic failure message.  The
`setCachedData` write on success is a store effect modelled by
`setCachedData` and does not affect the returned value. -/
def getPodcastEpisodes (dateVal : String → Int) (domParse : String → XMLDoc)
    (validUrl : Bool) (cached : Option (List Episode))
    (fetchResult : Except String FetchResponse) :
    Except String (List Episode) :=
  if validUrl = false then Except.error "Valid feed URL is required"
  else
    match cached with
    | some eps => Except.ok eps
    | none =>
      let attempt : Except String (List Episode) :=
        match fetchResult with
        | Except.error e => Except.error e
        | Except.ok response =>
          if response.ok = false then
            Except.error ("HTTP error! status: " ++ toString response.status)
          else
            match parseXMLFromString domParse response.body with
            | none => Except.error "Failed to parse RSS feed"
            | some xmlDoc => Except.ok (parseEpisodesFromXML dateVal xmlDoc)
      match attempt with
      | Except.ok eps => Except.ok eps
      | Except.error msg =>
        if strIncludes msg "CORS" || strIncludes msg "blocked" then
          Except.error "Unable to load episodes due to CORS restrictions. This podcast may not support direct streaming."
        else
          Except.error "Failed to load episodes. Please try again later."

/-- The persisted `currentEpisode` record `{episode, timestamp}`.  The
`episode` field is optional because a stored record may lack it, which
`loadSavedState` checks for explicitly. -/
structure SavedEpisode where
  episode : Option Episode
  timestamp : Int
deriving DecidableEq

/-- The persisted `playbackPosition` record
`{episodeGuid, position, timestamp}`. -/
structure SavedPosition where
  episodeGuid : String
  position : ℚ
  timestamp : Int
deriving DecidableEq

/-- The state `AudioPlayer` owns, together with the observable state of
the wrapped audio element and the two persisted `localStorage` records.
`currentTime`/`duration` are the player's own mirrors (`this.currentTime`,
`this.duration`); `audioCurrentTime`/`audioDuration` belong to the media
element (`audioDuration = none` models the `NaN` duration before
metadata arrives). -/
structure PlayerState where
  currentEpisode : Option Episode
  isPlaying : Bool
  currentTime : ℚ
  duration : ℚ
  audioSrc : String
  audioCurrentTime : ℚ
  audioDuration : Option ℚ
  audioPaused : Bool
  loading : Bool
  uiEpisode : Option (Episode × String)
  storedEpisode : Option SavedEpisode
  storedPosition : Option SavedPosition
deriving DecidableEq

/-- Embedding of `AudioPlayer.saveCurrentEpisode`: persists
`{episode: currentEpisode, timestamp: now}` when an episode is loaded. -/
def saveCurrentEpisode (now : Int) (s : PlayerState) : PlayerState :=
  match s.currentEpisode with
  | none => s
  | some ep => { s with storedEpisode := some ⟨some ep, now⟩ }

/-- Embedding of `AudioPlayer.savePlaybackPosition`: persists
`{episodeGuid, position: currentTime, timestamp: now}` when an episode is
loaded and the mirrored position is positive. -/
def savePlaybackPosition (now : Int) (s : PlayerState) : PlayerState :=
  match s.currentEpisode with
  | none => s
  | some ep =>
    if s.currentTime > 0 then
      { s with storedPosition := some ⟨ep.guid, s.currentTime, now⟩ }
    else s

/-- Embedding of `AudioPlayer.loadEpisode(episode, podcastName, autoPlay)`.  The
validity check `!episode || !episode.audioUrl` runs before any mutation
and throws `'Invalid episode data'` (first component) leaving the state
untouched.  On success: pause, reset the element position, enter the
loading state, assign the media source, update the display metadata,
persist `currentEpisode`.  The auto-play readiness race that a true
`autoPlay` starts is modelled separately by `raceRun`. -/
def loadEpisode (now : Int) (episode : Option Episode)
    (podcastName : String) (s : PlayerState) :
    Option String × PlayerState :=
  match episode with
  | none => (some "Invalid episode data", s)
  | some ep =>
    if ep.audioUrl = "" then (some "Invalid episode data", s)
    else
      let s1 := { s with
        currentEpisode := some ep
        audioPaused := true
        audioCurrentTime := 0
        loading := true
        audioSrc := ep.audioUrl
        uiEpisode := some (ep, podcastName) }
      (none, saveCurrentEpisode now s1)

/-- Embedding of `AudioPlayer.skipBack(seconds = 15)`: no-op without an episode;
otherwise `audio.currentTime = Math.max(0, audio.currentTime - seconds)`. -/
def skipBack (seconds : ℚ) (s : PlayerState) : PlayerState :=
  match s.currentEpisode with
  | none => s
  | some _ =>
    { s with audioCurrentTime := max 0 (s.audioCurrentTime - seconds) }

/-- Embedding of `AudioPlayer.skipForward(seconds = 30)`: no-op without an episode;
otherwise
`audio.currentTime = Math.min(audio.duration || 0, audio.currentTime + seconds)`
(`audio.duration || 0` reads 0 while the duration is still `NaN`,
modelled by `Option.getD` since a real duration of 0 also reads 0). -/
def skipForward (seconds : ℚ) (s : PlayerState) : PlayerState :=
  match s.currentEpisode with
  | none => s
  | some _ =>
    let dur := s.audioDuration.getD 0
    { s with audioCurrentTime := min dur (s.audioCurrentTime + seconds) }

/-- Embedding of `AudioPlayer.loadSavedState`, run once in the constructor: restores
the persisted episode only when the record and its `episode` field are
present and the record is younger than 24 hours, then seeks to the
persisted position only when that record matches the restored episode's
guid, is younger than 24 hours, and holds a positive position.  No play
request is made on this path. -/
def loadSavedState (now : Int) (s : PlayerState) : PlayerState :=
  match s.storedEpisode with
  | none => s
  | some savedEpisode =>
    match savedEpisode.episode with
    | none => s
    | some ep =>
      if now - savedEpisode.timestamp < 24 * 60 * 60 * 1000 then
        let s1 := { s with
          uiEpisode := some (ep, "Previously Played")
          currentEpisode := some ep }
        match s.storedPosition with
        | none => s1
        | some savedPosition =>
          if savedPosition.episodeGuid = ep.guid then
            if now - savedPosition.timestamp < 24 * 60 * 60 * 1000 ∧
                savedPosition.position > 0 then
              { s1 with audioCurrentTime := savedPosition.position }
            else s1
          else s1
      else s

/-- State of the auto-play readiness race started by
`AudioPlayer.waitForReadyAndPlay`: whether `play()` has been requested,
whether the 100 ms polling chain is still rescheduling itself, whether
the one-shot `canplay` listener is still attached, the loading flag, and
whether the 10-second timeout announcement was made.  `retried` records
whether anything re-initiated loading of the media source (no code path
in the race does). -/
structure RaceState where
  played : Bool
  pollActive : Bool
  canplayListener : Bool
  loading : Bool
  timeoutAnnounced : Bool
  retried : Bool
deriving DecidableEq

/-- Race state right after `loadEpisode` calls `waitForReadyAndPlay`:
loading is on, the polling chain starts immediately, the `canplay`
listener is attached, nothing has played. -/
def raceInit : RaceState :=
  ⟨false, true, true, true, false, false⟩

/-- One millisecond tick of the readiness race at time `t`.
`readyState t` is the media element's ready level at time `t`;
`canplayAt t` tells whether the engine emits `canplay` at time `t`.
The `canplay` handler removes itself and requests play; the polling
chain fires every 100 ms, requesting play and stopping once it sees
`readyState >= 3`, rescheduling otherwise; at `t = 10000` the timeout
removes the `canplay` listener and, if `readyState < 3`, clears the
loading state and announces the loading timeout. -/
def raceStep (readyState : Nat → Nat) (canplayAt : Nat → Bool)
    (s : RaceState) (t : Nat) : RaceState :=
  let s1 :=
    if canplayAt t ∧ s.canplayListener then
      { s with canplayListener := false, played := true }
    else s
  let s2 :=
    if s1.pollActive ∧ t % 100 = 0 then
      if readyState t ≥ 3 then { s1 with played := true, pollActive := false }
      else s1
    else s1
  if t = 10000 then
    let s3 := { s2 with canplayListener := false }
    if readyState t < 3 then
      { s3 with loading := false, timeoutAnnounced := true }
    else s3
  else s2

/-- The readiness race run from time 0 through time `n` (milliseconds). -/
def raceRun (readyState : Nat → Nat) (canplayAt : Nat → Bool) (n : Nat) :
    RaceState :=
  (List.range (n + 1)).foldl (raceStep readyState canplayAt) raceInit

/-- A feed item with every field empty and no enclosure. -/
def emptyItem : Item :=
  ⟨"", "", "", "", "", none, "", "", "", "", ""⟩

/-- A minimal well-formed feed item with a title, publication date, and
an audio enclosure. -/
def mkItem (title pubDate url : String) : Item :=
  { emptyItem with
    title := title
    pubDate := pubDate
    enclosure := some ⟨url, "audio/mpeg"⟩ }

/-- Order-preserving abstraction of the host `new Date(s).getTime()` on
the three ISO dates used in the worked examples; the sort outcome depends
only on the sign of the comparator, which this valuation preserves. -/
def exampleDateVal (s : String) : Int :=
  if s = "2024-03-01" then 3
  else if s = "2024-02-01" then 2
  else if s = "2024-01-01" then 1
  else 0

/-- A three-item feed dated 2024-01-01, 2024-03-01, 2024-02-01 in
document order. -/
def exampleFeed : XMLDoc :=
  ⟨false,
   [mkItem "Episode One" "2024-01-01" "https://feeds.example/1.mp3",
    mkItem "Episode Two" "2024-03-01" "https://feeds.example/2.mp3",
    mkItem "Episode Three" "2024-02-01" "https://feeds.example/3.mp3"]⟩

/-- The episode record that `parseEpisodeItem` produces for `mkItem`
inputs whose title carries no markup. -/
def mkEpisode (title pubDate url : String) : Episode :=
  ⟨title, "", url, pubDate, 0, "", url, "audio/mpeg"⟩

/-- An item whose raw title is non-empty but consists only of markup. -/
def titleMarkupItem : Item :=
  { emptyItem with
    title := "<br>"
    enclosure := some ⟨"https://feeds.example/markup.mp3", "audio/mpeg"⟩ }

/-- A feed containing only `titleMarkupItem`. -/
def titleMarkupFeed : XMLDoc :=
  ⟨false, [titleMarkupItem]⟩

/-- A host XML parser outcome for input that is not well-formed XML: the
produced document carries a `parsererror` element. -/
def failingDomParse : String → XMLDoc :=
  fun _ => ⟨true, []⟩

/-- A store holding one cache entry, value 7, written at timestamp 0. -/
def exampleStore : String → Option (CacheEntry Nat) :=
  fun k => if k = "episodes_abc" then some ⟨7, 0⟩ else none

/-- A fresh player state: nothing loaded, nothing persisted. -/
def examplePlayerState : PlayerState :=
  ⟨none, false, 0, 0, "", 0, none, true, false, none, none, none⟩

/-- A player state with an episode loaded, a 100-second duration, and the
position at 95 seconds. -/
def exampleLoadedState : PlayerState :=
  { examplePlayerState with
    currentEpisode :=
      some (mkEpisode "Episode One" "2024-01-01" "https://feeds.example/1.mp3")
    audioDuration := some 100
    audioCurrentTime := 95 }

/-- A player state whose persisted `currentEpisode` record was written at
timestamp 0 (so it is 25 hours old when read at `now = 25h`). -/
def staleSavedState : PlayerState :=
  { examplePlayerState with
    storedEpisode :=
      some ⟨some (mkEpisode "Old Episode" "2024-01-01"
        "https://feeds.example/old.mp3"), 0⟩ }

theorem insertDateDesc_perm (dv : String → Int) (e : Episode)
    (l : List Episode) : List.Perm (insertDateDesc dv e l) (e :: l) := by
  induction l with
  | nil => exact List.Perm.refl _
  | cons x xs ih =>
    by_cases h : dv x.pubDate ≤ dv e.pubDate
    · simp only [insertDateDesc, if_pos h]
      exact List.Perm.refl _
    · simp only [insertDateDesc, if_neg h]
      exact (ih.cons x).trans (List.Perm.swap e x xs)

theorem sortDateDesc_perm (dv : String → Int) (l : List Episode) :
    List.Perm (sortDateDesc dv l) l := by
  induction l with
  | nil => exact List.Perm.refl _
  | cons x xs ih =>
    exact (insertDateDesc_perm dv x (sortDateDesc dv xs)).trans (ih.cons x)

theorem insertDateDesc_pairwise (dv : String → Int) (e : Episode)
    (l : List Episode)
    (h : l.Pairwise (fun a b => dv b.pubDate ≤ dv a.pubDate)) :
    (insertDateDesc dv e l).Pairwise
      (fun a b => dv b.pubDate ≤ dv a.pubDate) := by
  induction l with
  | nil => simp [insertDateDesc]
  | cons x xs ih =>
    rcases List.pairwise_cons.mp h with ⟨hx, hxs⟩
    by_cases hc : dv x.pubDate ≤ dv e.pubDate
    · simp only [insertDateDesc, if_pos hc]
      refine List.pairwise_cons.mpr ⟨?_, h⟩
      intro y hy
      rcases List.mem_cons.mp hy with rfl | hy'
      · exact hc
      · exact le_trans (hx y hy') hc
    · simp only [insertDateDesc, if_neg hc]
      refine List.pairwise_cons.mpr ⟨?_, ih hxs⟩
      intro y hy
      have hmem : y = e ∨ y ∈ xs := by
        simpa using (insertDateDesc_perm dv e xs).mem_iff.mp hy
      rcases hmem with rfl | hy'
      · exact le_of_lt (lt_of_not_le hc)
      · exact hx y hy'

theorem sortDateDesc_pairwise (dv : String → Int) (l : List Episode) :
    (sortDateDesc dv l).Pairwise
      (fun a b => dv b.pubDate ≤ dv a.pubDate) := by
  induction l with
  | nil => simp [sortDateDesc]
  | cons x xs ih => exact insertDateDesc_pairwise dv x (sortDateDesc dv xs) ih

theorem parseEpisodeItem_fields (item : Item) (ep : Episode)
    (h : parseEpisodeItem item = some ep) :
    ep.audioUrl ≠ "" ∧ item.title ≠ "" := by
  simp only [parseEpisodeItem] at h
  split at h
  · exact Option.noConfusion h
  · next hc =>
    push_neg at hc
    rcases Option.some.injEq _ _ ▸ h with rfl
    exact ⟨hc.2, hc.1⟩

/-- C6: for every feed whose item dates all parse (the date valuation is
total), the episode list returned by `parseEpisodesFromXML` is sorted
descending by parsed `pubDate`; concretely, a feed with items dated
2024-01-01, 2024-03-01, 2024-02-01 comes back in the order
2024-03-01, 2024-02-01, 2024-01-01. -/
theorem episodes_sorted_desc :
    (∀ (dv : String → Int) (doc : XMLDoc),
      (parseEpisodesFromXML dv doc).Pairwise
        (fun a b => dv b.pubDate ≤ dv a.pubDate)) ∧
    parseEpisodesFromXML exampleDateVal exampleFeed =
      [mkEpisode "Episode Two" "2024-03-01" "https://feeds.example/2.mp3",
       mkEpisode "Episode Three" "2024-02-01" "https://feeds.example/3.mp3",
       mkEpisode "Episode One" "2024-01-01" "https://feeds.example/1.mp3"] := by
  refine ⟨?_, by decide⟩
  intro dv doc
  exact sortDateDesc_pairwise dv _

/-- C4 counterexample: the feed containing one item whose raw title is
the non-empty markup string `<br>` (with a valid audio enclosure) parses
to a singleton episode list whose episode has an empty title, because the
non-emptiness check runs on the raw title before `stripHtml` empties it.
This refutes the claim that every returned episode has a non-empty
title. -/
theorem parsed_title_can_be_empty :
    titleMarkupItem.title ≠ "" ∧
    (parseEpisodesFromXML exampleDateVal titleMarkupFeed).map Episode.title =
      [""] := by
  decide

/-- C4 (amended): every episode in a parsed feed has a non-empty
`audioUrl` and came from an item whose raw (pre-strip) title was
non-empty (the stored, markup-stripped title may still be empty); any
item lacking an enclosure audio locator is absent from the result
regardless of its other fields, and dropping such an item leaves the
rest of the parsed feed unaffected. -/
theorem feed_item_invariants :
    (∀ (dv : String → Int) (doc : XMLDoc) (ep : Episode),
      ep ∈ parseEpisodesFromXML dv doc → ep.audioUrl ≠ "") ∧
    (∀ item : Item, item.enclosure = none → parseEpisodeItem item = none) ∧
    (∀ (dv : String → Int) (pe : Bool) (its1 its2 : List Item) (item : Item),
      parseEpisodeItem item = none →
      parseEpisodesFromXML dv ⟨pe, its1 ++ item :: its2⟩ =
        parseEpisodesFromXML dv ⟨pe, its1 ++ its2⟩) ∧
    (∀ (item : Item) (ep : Episode),
      parseEpisodeItem item = some ep → item.title ≠ "") := by
  refine ⟨?_, ?_, ?_, ?_⟩
  · intro dv doc ep hmem
    simp only [parseEpisodesFromXML] at hmem
    have h1 := (sortDateDesc_perm dv (doc.items.filterMap parseEpisodeItem)).mem_iff.mp hmem
    rcases List.mem_filterMap.mp h1 with ⟨item, _, heq⟩
    exact (parseEpisodeItem_fields item ep heq).1
  · intro item h
    simp [parseEpisodeItem, h]
  · intro dv pe its1 its2 item h
    simp [parseEpisodesFromXML, List.filterMap_append, List.filterMap_cons, h]
  · intro item ep h
    exact (parseEpisodeItem_fields item ep h).2

/-- Closed instance of `feed_item_invariants`: an item with no enclosure
is dropped. -/
theorem feed_item_invariants_witness : parseEpisodeItem emptyItem = none :=
  feed_item_invariants.2.1 emptyItem rfl

/-- C5: `parseDuration` tries bare-integer seconds, then H:MM:SS, then
MM:SS, first match winning; empty or unmatched input yields 0; and the
five quoted evaluations hold. -/
theorem parseDuration_spec :
    parseDuration "1:02:03" = 3723 ∧
    parseDuration "2:05" = 125 ∧
    parseDuration "90" = 90 ∧
    parseDuration "" = 0 ∧
    parseDuration "garbage" = 0 ∧
    (∀ s : String, s.data ≠ [] → s.data.all Char.isDigit = true →
      parseDuration s = digitsToNat s.data) ∧
    (∀ s : String, s.data ≠ [] → s.data.all Char.isDigit = false →
      searchHMS s.data = none → searchMS s.data = none →
      parseDuration s = 0) := by
  refine ⟨by decide, by decide, by decide, by decide, by decide, ?_, ?_⟩
  · intro s h1 h2
    simp [parseDuration, h1, h2]
  · intro s h1 h2 h3 h4
    simp [parseDuration, h1, h2, h3, h4]

/-- Closed instance of `parseDuration_spec`: a bare-integer string is
read as seconds directly. -/
theorem parseDuration_spec_witness :
    parseDuration "45" = digitsToNat "45".data :=
  parseDuration_spec.2.2.2.2.2.1 "45" (by decide) (by decide)

/-- C2 counterexample: on input text that is not well-formed XML (the
host parser yields a `parsererror` document), the episode-fetch path
returns an error to its caller — not an empty episode list.  This
refutes the claim that document-level parse faults never reach the
caller. -/
theorem docParseFailure_reaches_caller :
    getPodcastEpisodes exampleDateVal failingDomParse true none
        (Except.ok ⟨true, 200, "this is not xml"⟩) =
      Except.error "Failed to load episodes. Please try again later." ∧
    ∀ eps : List Episode,
      getPodcastEpisodes exampleDateVal failingDomParse true none
          (Except.ok ⟨true, 200, "this is not xml"⟩) ≠ Except.ok eps := by
  have h0 : getPodcastEpisodes exampleDateVal failingDomParse true none
      (Except.ok ⟨true, 200, "this is not xml"⟩) =
      Except.error "Failed to load episodes. Please try again later." := by
    rfl
  refine ⟨h0, ?_⟩
  intro eps h
  rw [h0] at h
  exact Except.noConfusion h

/-- C2 (amended): a document-level parse fault is absorbed inside
`parseXMLFromString` (which returns `null` rather than throwing), and
`getPodcastEpisodes` then raises the generic failed-to-load error to the
caller; the empty-list outcome is not what malformed XML produces. -/
theorem getPodcastEpisodes_docParseFailure (dateVal : String → Int)
    (domParse : String → XMLDoc) (resp : FetchResponse)
    (hok : resp.ok = true)
    (hbad : (domParse resp.body).parserError = true) :
    parseXMLFromString domParse resp.body = none ∧
    getPodcastEpisodes dateVal domParse true none (Except.ok resp) =
      Except.error "Failed to load episodes. Please try again later." := by
  have hp : parseXMLFromString domParse resp.body = none := by
    simp [parseXMLFromString, hbad]
  have h1 : strIncludes "Failed to parse RSS feed" "CORS" = false := by decide
  have h2 : strIncludes "Failed to parse RSS feed" "blocked" = false := by decide
  refine ⟨hp, ?_⟩
  simp [getPodcastEpisodes, hok, hp, h1, h2]

/-- Closed instance of `getPodcastEpisodes_docParseFailure`. -/
theorem getPodcastEpisodes_docParseFailure_witness :
    getPodcastEpisodes exampleDateVal failingDomParse true none
        (Except.ok ⟨true, 200, "<rss><unclosed"⟩) =
      Except.error "Failed to load episodes. Please try again later." :=
  (getPodcastEpisodes_docParseFailure exampleDateVal failingDomParse
    ⟨true, 200, "<rss><unclosed"⟩ rfl rfl).2

/-- C3 counterexample: at `now - storedTimestamp = maxAge` exactly (an
age ≥ maxAge), the cache read still returns the stored value, because
the code expires only on the strict comparison `now - timestamp > maxAge`.
This refutes the claimed expiry at `now - storedTimestamp ≥ maxAge`. -/
theorem cache_boundary_counterexample :
    (100 : Int) - (0 : Int) ≥ (100 : Int) ∧
    (getCachedData exampleStore "episodes_abc" 100 100).1 = some 7 :=
  ⟨by decide, rfl⟩

/-- C3 (amended): a cache read returns absent and deletes the stored
entry once `now - storedTimestamp > maxAge` (strictly), leaves other
keys untouched when it deletes, and returns the stored value with the
store unchanged whenever `now - storedTimestamp ≤ maxAge` (in
particular just before expiry); a key never set reads as absent with
the store unchanged. -/
theorem getCachedData_ttl {α : Type} (store : String → Option (CacheEntry α))
    (key : String) (now maxAge : Int) :
    (store key = none → getCachedData store key now maxAge = (none, store)) ∧
    (∀ e : CacheEntry α, store key = some e → now - e.timestamp > maxAge →
      (getCachedData store key now maxAge).1 = none ∧
      (getCachedData store key now maxAge).2 key = none ∧
      ∀ k, k ≠ key → (getCachedData store key now maxAge).2 k = store k) ∧
    (∀ e : CacheEntry α, store key = some e → now - e.timestamp ≤ maxAge →
      getCachedData store key now maxAge = (some e.value, store)) := by
  refine ⟨?_, ?_, ?_⟩
  · intro h
    simp [getCachedData, h]
  · intro e he hexp
    simp only [getCachedData, he, if_pos hexp]
    refine ⟨by simp, by simp, ?_⟩
    intro k hk
    simp [hk]
  · intro e he hfresh
    simp [getCachedData, he, not_lt.mpr hfresh]

/-- Closed instance of `getCachedData_ttl`: one millisecond before
expiry the stored value is returned and the store is unchanged. -/
theorem getCachedData_ttl_witness :
    getCachedData exampleStore "episodes_abc" 99 100 = (some 7, exampleStore) :=
  (getCachedData_ttl exampleStore "episodes_abc" 99 100).2.2 ⟨7, 0⟩ rfl
    (by decide)

/-- C7: at process start `loadSavedState` restores the persisted episode
(UI metadata and loaded-episode marker, never a play request) only when
the record is present, carries an episode, and is strictly younger than
24 hours; it then seeks to the persisted position exactly when that
record's guid matches the restored episode's guid, is strictly younger
than 24 hours, and holds a positive position. -/
theorem loadSavedState_resume_spec (now : Int) (s : PlayerState) :
    ((loadSavedState now s).isPlaying = s.isPlaying ∧
      (loadSavedState now s).audioPaused = s.audioPaused) ∧
    (s.storedEpisode = none → loadSavedState now s = s) ∧
    (∀ se, s.storedEpisode = some se → se.episode = none →
      loadSavedState now s = s) ∧
    (∀ se, s.storedEpisode = some se →
      ¬(now - se.timestamp < 24 * 60 * 60 * 1000) →
      loadSavedState now s = s) ∧
    (∀ se ep, s.storedEpisode = some se → se.episode = some ep →
      now - se.timestamp < 24 * 60 * 60 * 1000 →
      (loadSavedState now s).currentEpisode = some ep ∧
      (loadSavedState now s).uiEpisode = some (ep, "Previously Played")) ∧
    (∀ se ep sp, s.storedEpisode = some se → se.episode = some ep →
      now - se.timestamp < 24 * 60 * 60 * 1000 →
      s.storedPosition = some sp → sp.episodeGuid = ep.guid →
      now - sp.timestamp < 24 * 60 * 60 * 1000 → sp.position > 0 →
      (loadSavedState now s).audioCurrentTime = sp.position) ∧
    (∀ se ep, s.storedEpisode = some se → se.episode = some ep →
      s.storedPosition = none →
      (loadSavedState now s).audioCurrentTime = s.audioCurrentTime) ∧
    (∀ se ep sp, s.storedEpisode = some se → se.episode = some ep →
      s.storedPosition = some sp →
      (sp.episodeGuid ≠ ep.guid ∨
        ¬(now - sp.timestamp < 24 * 60 * 60 * 1000) ∨ ¬(sp.position > 0)) →
      (loadSavedState now s).audioCurrentTime = s.audioCurrentTime) := by
  refine ⟨?_, ?_, ?_, ?_, ?_, ?_, ?_, ?_⟩
  · simp only [loadSavedState]
    repeat' split
    all_goals exact ⟨rfl, rfl⟩
  · intro h
    simp [loadSavedState, h]
  · intro se h1 h2
    simp [loadSavedState, h1, h2]
  · intro se h1 h2
    simp only [loadSavedState, h1]
    cases he : se.episode with
    | none => rfl
    | some ep => exact if_neg h2
  · intro se ep h1 h2 h3
    simp only [loadSavedState, h1, h2, if_pos h3]
    repeat' split
    all_goals exact ⟨rfl, rfl⟩
  · intro se ep sp h1 h2 h3 h4 h5 h6 h7
    simp only [loadSavedState, h1, h2, h4]
    rw [if_pos h3, if_pos h5, if_pos ⟨h6, h7⟩]
  · intro se ep h1 h2 h4
    simp only [loadSavedState, h1, h2, h4]
    split <;> rfl
  · intro se ep sp h1 h2 h3 hbad
    simp only [loadSavedState, h1, h2, h3]
    split
    · by_cases hg : sp.episodeGuid = ep.guid
      · rw [if_pos hg]
        have hcond : ¬(now - sp.timestamp < 24 * 60 * 60 * 1000 ∧
            sp.position > 0) := by
          intro hc
          rcases hbad with hb | hb | hb
          · exact hb hg
          · exact hb hc.1
          · exact hb hc.2
        rw [if_neg hcond]
      · rw [if_neg hg]
    · rfl

/-- Closed instance of `loadSavedState_resume_spec`: a persisted record
25 hours old is not restored — the state is unchanged. -/
theorem loadSavedState_resume_spec_witness :
    loadSavedState (25 * 60 * 60 * 1000) staleSavedState = staleSavedState :=
  (loadSavedState_resume_spec (25 * 60 * 60 * 1000) staleSavedState).2.2.2.1
    ⟨some (mkEpisode "Old Episode" "2024-01-01"
      "https://feeds.example/old.mp3"), 0⟩ rfl (by decide)

/-- C8: `loadEpisode` fails with the invalid-episode error exactly when
the episode argument is absent or its audio locator is empty. -/
theorem loadEpisode_invalidEpisode_iff (now : Int) (episode : Option Episode)
    (podcastName : String) (s : PlayerState) :
    (loadEpisode now episode podcastName s).1 = some "Invalid episode data" ↔
      episode = none ∨ ∃ ep, episode = some ep ∧ ep.audioUrl = "" := by
  cases episode with
  | none => simp [loadEpisode]
  | some ep =>
    by_cases h : ep.audioUrl = ""
    · simp [loadEpisode, h]
    · simp [loadEpisode, h]

/-- Closed instance of `loadEpisode_invalidEpisode_iff`. -/
theorem loadEpisode_invalidEpisode_iff_witness :
    (loadEpisode 0 none "Podcast" examplePlayerState).1 =
      some "Invalid episode data" :=
  (loadEpisode_invalidEpisode_iff 0 none "Podcast" examplePlayerState).mpr
    (Or.inl rfl)

/-- C10: when `loadEpisode` is called with an absent episode or one with
an empty audio locator, the error is raised before any mutation — the
entire player state, including the current episode, media source, and
both persisted records, is returned unchanged. -/
theorem loadEpisode_failure_atomic (now : Int) (episode : Option Episode)
    (podcastName : String) (s : PlayerState)
    (h : episode = none ∨ ∃ ep, episode = some ep ∧ ep.audioUrl = "") :
    loadEpisode now episode podcastName s = (some "Invalid episode data", s) := by
  rcases h with rfl | ⟨ep, rfl, h⟩
  · rfl
  · simp [loadEpisode, h]

/-- Closed instance of `loadEpisode_failure_atomic`. -/
theorem loadEpisode_failure_atomic_witness :
    loadEpisode 0 none "Podcast" exampleLoadedState =
      (some "Invalid episode data", exampleLoadedState) :=
  loadEpisode_failure_atomic 0 none "Podcast" exampleLoadedState (Or.inl rfl)

/-- C9: with no episode loaded, `skipForward` and `skipBack` are no-ops;
with an episode loaded, `skipForward` never takes the position above the
known duration, collapses to position 0 when the duration is unknown,
and `skipBack` never takes the position below 0. -/
theorem skip_clamping (seconds : ℚ) (s : PlayerState) :
    (s.currentEpisode = none →
      skipForward seconds s = s ∧ skipBack seconds s = s) ∧
    (∀ d : ℚ, s.currentEpisode ≠ none → s.audioDuration = some d →
      (skipForward seconds s).audioCurrentTime ≤ d) ∧
    (s.currentEpisode ≠ none → s.audioDuration = none →
      0 ≤ s.audioCurrentTime + seconds →
      (skipForward seconds s).audioCurrentTime = 0) ∧
    (s.currentEpisode ≠ none → 0 ≤ (skipBack seconds s).audioCurrentTime) := by
  refine ⟨?_, ?_, ?_, ?_⟩
  · intro h
    constructor <;> simp [skipForward, skipBack, h]
  · intro d h hd
    cases hc : s.currentEpisode with
    | none => exact absurd hc h
    | some ep => simp [skipForward, hc, hd, min_le_left]
  · intro h hd hpos
    cases hc : s.currentEpisode with
    | none => exact absurd hc h
    | some ep =>
      simp only [skipForward, hc, hd, Option.getD_none]
      exact min_eq_left hpos
  · intro h
    cases hc : s.currentEpisode with
    | none => exact absurd hc h
    | some ep => simp [skipBack, hc, le_max_left]

/-- Closed instance of `skip_clamping`: skipping forward 30 seconds from
95 seconds into a 100-second episode stays at or below 100 seconds. -/
theorem skip_clamping_witness :
    (skipForward 30 exampleLoadedState).audioCurrentTime ≤ 100 :=
  (skip_clamping 30 exampleLoadedState).2.1 100 (by decide) (by decide)

theorem raceStep_eq_of_silent (readyState : Nat → Nat) (canplayAt : Nat → Bool)
    (hRS : ∀ t, readyState t < 3) (hCP : ∀ t, canplayAt t = false)
    (s : RaceState) (t : Nat) :
    raceStep readyState canplayAt s t =
      if t = 10000 then
        { s with canplayListener := false, loading := false,
                 timeoutAnnounced := true }
      else s := by
  have h3 : ¬(readyState t ≥ 3) := by
    have := hRS t
    omega
  simp [raceStep, hCP t, h3, hRS t]

theorem raceRun_succ (readyState : Nat → Nat) (canplayAt : Nat → Bool)
    (n : Nat) :
    raceRun readyState canplayAt (n + 1) =
      raceStep readyState canplayAt (raceRun readyState canplayAt n) (n + 1) := by
  simp [raceRun, List.range_succ]

theorem raceRun_eq_of_silent (readyState : Nat → Nat) (canplayAt : Nat → Bool)
    (hRS : ∀ t, readyState t < 3) (hCP : ∀ t, canplayAt t = false) (n : Nat) :
    raceRun readyState canplayAt n =
      if n < 10000 then raceInit
      else ⟨false, true, false, false, true, false⟩ := by
  induction n with
  | zero =>
    have h := raceStep_eq_of_silent readyState canplayAt hRS hCP raceInit 0
    have h0 : raceRun readyState canplayAt 0 =
        raceStep readyState canplayAt raceInit 0 := by
      simp [raceRun, List.range_succ]
    rw [h0, h]
    simp
  | succ n ih =>
    rw [raceRun_succ, ih, raceStep_eq_of_silent readyState canplayAt hRS hCP]
    by_cases h1 : n + 1 < 10000
    · have h2 : n < 10000 := by omega
      have h3 : ¬(n + 1 = 10000) := by omega
      simp [h1, h2, h3]
    · by_cases h4 : n + 1 = 10000
      · have h2 : n < 10000 := by omega
        simp [h1, h2, h4, raceInit]
      · have h2 : ¬(n < 10000) := by omega
        simp [h1, h2, h4]

/-- C1: if the media engine never reaches ready level 3 and never emits
`canplay`, the readiness race started by an auto-play load never requests
playback, keeps the loading state and stays silent before the 10-second
mark, and at 10 seconds (and ever after) has reported the loading
timeout, cleared the loading state, removed the `canplay` listener, and
initiated no retry. -/
theorem autoplay_readiness_timeout (readyState : Nat → Nat)
    (canplayAt : Nat → Bool)
    (hRS : ∀ t, readyState t < 3) (hCP : ∀ t, canplayAt t = false)
    (n : Nat) :
    (raceRun readyState canplayAt n).played = false ∧
    (raceRun readyState canplayAt n).retried = false ∧
    (n < 10000 →
      (raceRun readyState canplayAt n).loading = true ∧
      (raceRun readyState canplayAt n).timeoutAnnounced = false) ∧
    (10000 ≤ n →
      (raceRun readyState canplayAt n).loading = false ∧
      (raceRun readyState canplayAt n).timeoutAnnounced = true ∧
      (raceRun readyState canplayAt n).canplayListener = false) := by
  rw [raceRun_eq_of_silent readyState canplayAt hRS hCP]
  by_cases h : n < 10000
  · refine ⟨by simp [h, raceInit], by simp [h, raceInit], ?_, ?_⟩
    · intro _
      exact ⟨by simp [h, raceInit], by simp [h, raceInit]⟩
    · intro h'
      omega
  · refine ⟨by simp [h], by simp [h], ?_, ?_⟩
    · intro h'
      omega
    · intro _
      exact ⟨by simp [h], by simp [h], by simp [h]⟩

/-- Closed instance of `autoplay_readiness_timeout`: a media engine stuck
at ready level 0 with no `canplay` yields, at the 10-second mark, no
play request, no retry, loading off, and the timeout announced. -/
theorem autoplay_readiness_timeout_witness :
    (raceRun (fun _ => 0) (fun _ => false) 10000).played = false ∧
    (raceRun (fun _ => 0) (fun _ => false) 10000).retried = false ∧
    (raceRun (fun _ => 0) (fun _ => false) 10000).loading = false ∧
    (raceRun (fun _ => 0) (fun _ => false) 10000).timeoutAnnounced = true := by
  have h := autoplay_readiness_timeout (fun _ => 0) (fun _ => false)
    (fun t => Nat.zero_lt_succ 2) (fun t => rfl) 10000
  exact ⟨h.1, h.2.1, (h.2.2.2 (by decide)).1, (h.2.2.2 (by decide)).2.1⟩

end Podcatcher
